import Mathlib

/-!
Verification of the Ansible dynamic-inventory script
(src/ansible/dynamic_inventory.py) against its specification.

The script bridges Terraform and Ansible: it runs `terraform output -json`,
parses the result, and reshapes two fields (`ec2_public_ip`, `vault_domain`)
into the fixed inventory document Ansible expects, handling the `--list` and
`--host` invocation modes.

The embedding below models:
  * JSON values (`Json`), as produced by `json.loads` (numbers restricted to
    integers; the script never manipulates numeric values);
  * Python `dict.get` with default, including the `AttributeError` raised
    when `.get` is invoked on a non-dict (`jsonGetD`);
  * the three source functions `get_terraform_output`, `generate_inventory`
    and `main`; the part of `generate_inventory` that follows the fetch
    (lines 36-74) is factored out as `build`, the `build()` contract of
    spec section 4.2;
  * `json.dumps(..., indent=2)` (`dumps`) and `json.loads` (`loads`) on the
    character-list level, faithful to CPython's encoder (ensure_ascii
    escaping, surrogate pairs) and scanner (whitespace skipping, string
    escapes, strict rejection of raw control characters).

Diagnostic lines written to stderr are modelled by the `Diag` inductive; the
exact message text is irrelevant to every claim.
-/

namespace DynamicInventory

/-- JSON values as returned by `json.loads` / accepted by `json.dumps`.
Objects are insertion-ordered key/value lists (Python dicts preserve
insertion order, and all dict operations of the script respect it).
Numbers are modelled as integers; the script never constructs or inspects
numeric values, so JSON floats are outside the model. -/
inductive Json where
  | null
  | bool (b : Bool)
  | num (n : Int)
  | str (s : String)
  | arr (elts : List Json)
  | obj (fields : List (String × Json))

/-- The Python exceptions relevant to the script: `KeyError` (the only
exception `generate_inventory` catches) and `AttributeError` (what `.get`
raises when its receiver is not a dict). -/
inductive PyExc where
  | keyError
  | attributeError
deriving DecidableEq

/-- Stderr diagnostics, one constructor per `print(..., file=sys.stderr)`
site of the source:
  * `cmdFailure`  — "Error running terraform output: ..." (line 27)
  * `parseFailure` — "Error parsing terraform output: ..." (line 30)
  * `missingIp`   — "Error: Could not get EC2 IP from terraform output" (line 45)
  * `missingKey`  — "Error: Missing key in terraform output: ..." (line 49)
  * `usage`       — "Usage: dynamic_inventory.py --list | --host <hostname>" (line 86) -/
inductive Diag where
  | cmdFailure
  | parseFailure
  | missingIp
  | missingKey
  | usage
deriving DecidableEq

/-- Lookup in an insertion-ordered string-keyed association list: the value
of the first matching key, mirroring Python dict lookup (keys in a dict
built by `json.loads` are unique, so first-match agrees with dict lookup). -/
def alistGet {α : Type} (l : List (String × α)) (k : String) : Option α :=
  (l.find? (fun p => p.1 == k)).map (fun p => p.2)

/-- Python `d.get(k, dflt)` on a dict: the stored value, or the default. -/
def pyGetD (l : List (String × Json)) (k : String) (dflt : Json) : Json :=
  match alistGet l k with
  | some v => v
  | none => dflt

/-- Python `x.get(k, dflt)` where `x` is an arbitrary parsed JSON value:
succeeds on a dict, raises `AttributeError` on every other shape
(strings, lists, numbers, booleans and `None` have no `.get` method). -/
def jsonGetD (j : Json) (k : String) (dflt : Json) : Except PyExc Json :=
  match j with
  | Json.obj kvs => Except.ok (pyGetD kvs k dflt)
  | _ => Except.error PyExc.attributeError

/-- Python truthiness of a parsed JSON value, as used by `if not ec2_ip:`
(line 44): empty string, empty list, empty dict, zero, `False` and `None`
are falsy; everything else is truthy. -/
def truthy : Json → Bool
  | Json.null => false
  | Json.bool b => b
  | Json.num n => n != 0
  | Json.str s => s != ""
  | Json.arr l => !l.isEmpty
  | Json.obj l => !l.isEmpty

/-- The "empty inventory" sentinel returned on a missing/empty address
(lines 46 and 50): `{"_meta": {"hostvars": {}}}` — empty hostvars, no
group keys. -/
def emptyInventory : Json :=
  Json.obj [("_meta", Json.obj [("hostvars", Json.obj [])])]

/-- The full single-group inventory built at lines 53-71, parameterised by
the two values extracted from the Terraform output.  The version string,
root token, remote user, key path and SSH options are the hardcoded
constants of the source. -/
def fullInventory (ec2_ip vault_domain : Json) : Json :=
  Json.obj
    [("vault_servers",
      Json.obj
        [("hosts", Json.arr [Json.str "vault_server"]),
         ("vars",
          Json.obj
            [("vault_version", Json.str "1.15.6"),
             ("vault_domain", vault_domain),
             ("vault_root_token", Json.str "vault-dev-root-token")])]),
     ("_meta",
      Json.obj
        [("hostvars",
          Json.obj
            [("vault_server",
              Json.obj
                [("ansible_host", ec2_ip),
                 ("ansible_user", Json.str "ubuntu"),
                 ("ansible_ssh_private_key_file", Json.str "../vault-ssh-key.pem"),
                 ("ansible_ssh_common_args", Json.str "-o StrictHostKeyChecking=no")])])])]

/-- The inventory-building part of `generate_inventory` (lines 36-74), i.e.
the `build()` contract of spec section 4.2, applied to an already-parsed
Terraform output.  Mirrors the source statement by statement:

  * `ec2_ip = terraform_output.get('ec2_public_ip', {}).get('value', '')`
  * `vault_domain = terraform_output.get('vault_domain', {}).get('value', 'vault.example.com')`
  * `if not ec2_ip:` print + return the sentinel
  * the `try`/`except KeyError` wrapping those statements (lines 38-50):
    a `KeyError` is converted to the sentinel; any other exception
    (in particular the `AttributeError` raised by `.get` on a non-dict)
    propagates out of the function.

The returned pair carries the inventory document and the stderr
diagnostics emitted on the way. -/
def build (terraform_output : Json) : Except PyExc (Json × List Diag) :=
  let attempt : Except PyExc (Json × List Diag) :=
    match jsonGetD terraform_output "ec2_public_ip" (Json.obj []) with
    | Except.error e => Except.error e
    | Except.ok r1 =>
      match jsonGetD r1 "value" (Json.str "") with
      | Except.error e => Except.error e
      | Except.ok ec2_ip =>
        match jsonGetD terraform_output "vault_domain" (Json.obj []) with
        | Except.error e => Except.error e
        | Except.ok r2 =>
          match jsonGetD r2 "value" (Json.str "vault.example.com") with
          | Except.error e => Except.error e
          | Except.ok vault_domain =>
            if truthy ec2_ip then Except.ok (fullInventory ec2_ip vault_domain, [])
            else Except.ok (emptyInventory, [Diag.missingIp])
  match attempt with
  | Except.error PyExc.keyError => Except.ok (emptyInventory, [Diag.missingKey])
  | r => r

/-- The observable outcome of the external `terraform output -json`
invocation (lines 18-24): whether the command exited with status 0, and —
when it did — the result of `json.loads` on its captured stdout (`none`
when the text is not valid JSON, i.e. `json.loads` raises
`JSONDecodeError`). -/
structure ExternalRun where
  exitOk : Bool
  parsed : Option Json

/-- Embeds `get_terraform_output` (lines 12-31).  `subprocess.run` with
`check=True` raises `CalledProcessError` on a non-zero exit, caught at
line 26; `json.loads` failure is caught at line 29.  Both handlers print a
diagnostic and return `{}` — the function never raises.  Returns the
parsed output together with the emitted diagnostics. -/
def get_terraform_output (run : ExternalRun) : Json × List Diag :=
  if run.exitOk then
    match run.parsed with
    | some j => (j, [])
    | none => (Json.obj [], [Diag.parseFailure])
  else (Json.obj [], [Diag.cmdFailure])

/-- Embeds `generate_inventory` (lines 33-74) in full: fetch the Terraform
output, then build the inventory from it.  Diagnostics of both stages are
concatenated in emission order. -/
def generate_inventory (run : ExternalRun) : Except PyExc (Json × List Diag) :=
  let fetched := get_terraform_output run
  match build fetched.1 with
  | Except.ok (inv, ds) => Except.ok (inv, fetched.2 ++ ds)
  | Except.error e => Except.error e

/-- Left brace, written via its code point to keep string literals
brace-free. -/
def lbrace : Char := '\x7b'

/-- Right brace. -/
def rbrace : Char := '\x7d'

/-- Decimal digit character: `digitChar d` is `'0'`..`'9'` for `d < 10`. -/
def digitChar (d : Nat) : Char := Char.ofNat (48 + d)

/-- Decimal representation of a natural number, most significant digit
first, as produced by Python `repr`/`json.dumps` for non-negative ints:
no sign, no leading zeros (except `"0"` itself). -/
def natChars (n : Nat) : List Char :=
  if n < 10 then [digitChar n]
  else natChars (n / 10) ++ [digitChar (n % 10)]
decreasing_by exact Nat.div_lt_self (by omega) (by omega)

/-- Decimal representation of an integer as serialized by `json.dumps`. -/
def intChars : Int → List Char
  | Int.ofNat m => natChars m
  | Int.negSucc m => '-' :: natChars (m + 1)

/-- Newline followed by the indentation of nesting depth `d`, as emitted by
`json.dumps(..., indent=2)` before each item and each closing bracket. -/
def nlc (d : Nat) : List Char := '\n' :: List.replicate (2 * d) ' '

/-- Lowercase hexadecimal digit character (`'0'`..`'9'`, `'a'`..`'f'`),
as used by CPython's `\uXXXX` escapes. -/
def hexDigitChar (d : Nat) : Char :=
  if d < 10 then Char.ofNat (48 + d) else Char.ofNat (87 + d)

/-- Four lowercase hex digits of `n % 0x10000`, most significant first. -/
def hex4 (n : Nat) : List Char :=
  [hexDigitChar (n / 4096 % 16), hexDigitChar (n / 256 % 16),
   hexDigitChar (n / 16 % 16), hexDigitChar (n % 16)]

/-- CPython's `py_encode_basestring_ascii` escaping of one character
(the default `ensure_ascii=True` mode used by the script):
`"` and `\` get a backslash escape; the five control characters with short
escapes use them; every other character outside printable ASCII
(`0x20`..`0x7e`) becomes `\uXXXX`, with astral characters written as a
UTF-16 surrogate pair; printable ASCII is emitted verbatim. -/
def escChar (c : Char) : List Char :=
  if c == '"' then ['\\', '"']
  else if c == '\\' then ['\\', '\\']
  else if c == '\x08' then ['\\', 'b']
  else if c == '\x09' then ['\\', 't']
  else if c == '\x0a' then ['\\', 'n']
  else if c == '\x0c' then ['\\', 'f']
  else if c == '\x0d' then ['\\', 'r']
  else if c.toNat < 0x20 || 0x7e < c.toNat then
    if c.toNat < 0x10000 then '\\' :: 'u' :: hex4 c.toNat
    else
      ('\\' :: 'u' :: hex4 (0xd800 + (c.toNat - 0x10000) / 0x400)) ++
        ('\\' :: 'u' :: hex4 (0xdc00 + (c.toNat - 0x10000) % 0x400))
  else [c]

/-- Escaped body of a serialized JSON string. -/
def escList (cs : List Char) : List Char := cs.flatMap escChar

/-- A serialized JSON string: quote, escaped body, quote. -/
def serStr (s : String) : List Char := '"' :: (escList s.data ++ ['"'])

mutual

/-- Serialization of a JSON value at nesting depth `d`, following
`json.dumps(..., indent=2)`: with an indent, the item separator is `","`
followed by a newline and indentation, the key separator is `": "`, and
empty containers are written inline. -/
def serVal (d : Nat) : Json → List Char
  | Json.null => ['n', 'u', 'l', 'l']
  | Json.bool true => ['t', 'r', 'u', 'e']
  | Json.bool false => ['f', 'a', 'l', 's', 'e']
  | Json.num n => intChars n
  | Json.str s => serStr s
  | Json.arr l => serArr d l
  | Json.obj l => serObj d l

/-- Serialization of an array at depth `d`. -/
def serArr (d : Nat) : List Json → List Char
  | [] => ['[', ']']
  | x :: xs =>
      '[' :: (nlc (d + 1) ++ serVal (d + 1) x ++ serArrRest (d + 1) xs ++ nlc d ++ [']'])

/-- Serialization of the second and later array elements. -/
def serArrRest (d : Nat) : List Json → List Char
  | [] => []
  | x :: xs => ',' :: (nlc d ++ serVal d x ++ serArrRest d xs)

/-- Serialization of an object at depth `d`. -/
def serObj (d : Nat) : List (String × Json) → List Char
  | [] => [lbrace, rbrace]
  | kv :: kvs =>
      lbrace ::
        (nlc (d + 1) ++ serMember (d + 1) kv ++ serObjRest (d + 1) kvs ++ nlc d ++ [rbrace])

/-- Serialization of one object member: key string, `": "`, value. -/
def serMember (d : Nat) : String × Json → List Char
  | (k, v) => serStr k ++ ':' :: ' ' :: serVal d v

/-- Serialization of the second and later object members. -/
def serObjRest (d : Nat) : List (String × Json) → List Char
  | [] => []
  | kv :: kvs => ',' :: (nlc d ++ serMember d kv ++ serObjRest d kvs)

end

/-- `json.dumps(j, indent=2)` as a character list. -/
def dumps (j : Json) : List Char := serVal 0 j

/-- The whitespace characters skipped by CPython's JSON scanner. -/
def isWsCh (c : Char) : Bool := c == ' ' || c == '\t' || c == '\n' || c == '\r'

/-- Drop leading JSON whitespace. -/
def skipWs : List Char → List Char
  | [] => []
  | c :: cs => if isWsCh c then skipWs cs else c :: cs

/-- ASCII decimal digit test. -/
def isDigitCh (c : Char) : Bool := 48 ≤ c.toNat && c.toNat ≤ 57

/-- Numeric value of an ASCII decimal digit. -/
def dval (c : Char) : Nat := c.toNat - 48

/-- Split off the maximal run of leading decimal digits. -/
def takeDigits : List Char → List Char × List Char
  | [] => ([], [])
  | c :: cs =>
      if isDigitCh c then
        let p := takeDigits cs
        (c :: p.1, p.2)
      else ([], c :: cs)

/-- Value of a most-significant-first decimal digit string. -/
def digitsVal (ds : List Char) : Nat := ds.foldl (fun a c => a * 10 + dval c) 0

/-- Parse a JSON non-negative integer literal, per the grammar
`0 | [1-9][0-9]*`: a leading `'0'` is a complete literal by itself
(CPython's NUMBER_RE), otherwise the maximal digit run is consumed. -/
def parseNat : List Char → Option (Nat × List Char)
  | [] => none
  | c :: cs =>
      if c == '0' then some (0, cs)
      else if isDigitCh c then
        let p := takeDigits (c :: cs)
        some (digitsVal p.1, p.2)
      else none

/-- Value of a hexadecimal digit character, either case. -/
def hexVal (c : Char) : Option Nat :=
  if 48 ≤ c.toNat && c.toNat ≤ 57 then some (c.toNat - 48)
  else if 97 ≤ c.toNat && c.toNat ≤ 102 then some (c.toNat - 87)
  else if 65 ≤ c.toNat && c.toNat ≤ 70 then some (c.toNat - 55)
  else none

mutual

/-- Parse the body of a JSON string up to and including the closing quote,
per CPython's strict `py_scanstring`: backslash escapes (`\" \\ \/ \b \f
\n \r \t`), `\uXXXX` with UTF-16 surrogate pairs recombined, raw control
characters rejected.  A lone surrogate — representable in a Python `str`
but not in a Lean `Char` — is rejected, which no output of `escList` ever
contains. -/
def parseStrBody : List Char → Option (List Char × List Char)
  | [] => none
  | c :: cs =>
    if c == '"' then some ([], cs)
    else if c == '\\' then parseEsc cs
    else if c.toNat < 0x20 then none
    else (parseStrBody cs).map (fun p => (c :: p.1, p.2))

/-- Parse what follows a backslash inside a JSON string. -/
def parseEsc : List Char → Option (List Char × List Char)
  | [] => none
  | e :: cs2 =>
    if e == '"' then (parseStrBody cs2).map (fun p => ('"' :: p.1, p.2))
    else if e == '\\' then (parseStrBody cs2).map (fun p => ('\\' :: p.1, p.2))
    else if e == '/' then (parseStrBody cs2).map (fun p => ('/' :: p.1, p.2))
    else if e == 'b' then (parseStrBody cs2).map (fun p => ('\x08' :: p.1, p.2))
    else if e == 'f' then (parseStrBody cs2).map (fun p => ('\x0c' :: p.1, p.2))
    else if e == 'n' then (parseStrBody cs2).map (fun p => ('\x0a' :: p.1, p.2))
    else if e == 'r' then (parseStrBody cs2).map (fun p => ('\x0d' :: p.1, p.2))
    else if e == 't' then (parseStrBody cs2).map (fun p => ('\x09' :: p.1, p.2))
    else if e == 'u' then parseU cs2
    else none

/-- Parse the four hex digits of a `\uXXXX` escape; a high surrogate must
be followed by a `\u`-escaped low surrogate, with which it is combined. -/
def parseU : List Char → Option (List Char × List Char)
  | h1 :: h2 :: h3 :: h4 :: cs3 =>
    (match hexVal h1, hexVal h2, hexVal h3, hexVal h4 with
     | some a, some b, some x, some y =>
       let n := ((a * 16 + b) * 16 + x) * 16 + y
       if 0xd800 ≤ n && n < 0xdc00 then parseLow n cs3
       else if 0xdc00 ≤ n && n < 0xe000 then none
       else (parseStrBody cs3).map (fun p => (Char.ofNat n :: p.1, p.2))
     | _, _, _, _ => none)
  | _ => none

/-- Parse the `\u`-escaped low surrogate following a high surrogate `n`
and recombine the pair into one code point. -/
def parseLow (n : Nat) : List Char → Option (List Char × List Char)
  | '\\' :: 'u' :: g1 :: g2 :: g3 :: g4 :: cs4 =>
    (match hexVal g1, hexVal g2, hexVal g3, hexVal g4 with
     | some a2, some b2, some x2, some y2 =>
       let m := ((a2 * 16 + b2) * 16 + x2) * 16 + y2
       if 0xdc00 ≤ m && m < 0xe000 then
         (parseStrBody cs4).map
           (fun p => (Char.ofNat (0x10000 + (n - 0xd800) * 0x400 + (m - 0xdc00)) :: p.1, p.2))
       else none
     | _, _, _, _ => none)
  | _ => none

end

mutual

/-- Recursive-descent JSON value parser with explicit recursion fuel,
mirroring CPython's scanner: skip whitespace, then dispatch on the first
character.  Returns the parsed value and the unconsumed remainder. -/
def parseVal : Nat → List Char → Option (Json × List Char)
  | 0, _ => none
  | fuel + 1, s =>
    match skipWs s with
    | [] => none
    | c :: cs =>
      if c == lbrace then
        match skipWs cs with
        | [] => none
        | c2 :: cs2 =>
            if c2 == rbrace then some (Json.obj [], cs2)
            else (parseMembers fuel (c2 :: cs2)).map (fun p => (Json.obj p.1, p.2))
      else if c == '[' then
        match skipWs cs with
        | [] => none
        | c2 :: cs2 =>
            if c2 == ']' then some (Json.arr [], cs2)
            else (parseElems fuel (c2 :: cs2)).map (fun p => (Json.arr p.1, p.2))
      else if c == '"' then
        (parseStrBody cs).map (fun p => (Json.str (String.mk p.1), p.2))
      else if c == 'n' then
        match cs with
        | 'u' :: 'l' :: 'l' :: rest => some (Json.null, rest)
        | _ => none
      else if c == 't' then
        match cs with
        | 'r' :: 'u' :: 'e' :: rest => some (Json.bool true, rest)
        | _ => none
      else if c == 'f' then
        match cs with
        | 'a' :: 'l' :: 's' :: 'e' :: rest => some (Json.bool false, rest)
        | _ => none
      else if c == '-' then
        match parseNat cs with
        | some (n, rest) => some (Json.num (-(n : Int)), rest)
        | none => none
      else
        match parseNat (c :: cs) with
        | some (n, rest) => some (Json.num (n : Int), rest)
        | none => none

/-- Parse the elements of a non-empty JSON array, from the first element
up to and including the closing `]`. -/
def parseElems : Nat → List Char → Option (List Json × List Char)
  | 0, _ => none
  | fuel + 1, s =>
    match parseVal fuel s with
    | none => none
    | some (v, rest) =>
      match skipWs rest with
      | [] => none
      | c :: rest2 =>
          if c == ',' then (parseElems fuel rest2).map (fun p => (v :: p.1, p.2))
          else if c == ']' then some ([v], rest2)
          else none

/-- Parse the members of a non-empty JSON object, from the first key up to
and including the closing brace. -/
def parseMembers : Nat → List Char → Option (List (String × Json) × List Char)
  | 0, _ => none
  | fuel + 1, s =>
    match skipWs s with
    | [] => none
    | c :: cs =>
      if c == '"' then
        match parseStrBody cs with
        | none => none
        | some (kcs, rest) =>
          match skipWs rest with
          | ':' :: rest2 =>
            match parseVal fuel rest2 with
            | none => none
            | some (v, rest3) =>
              match skipWs rest3 with
              | [] => none
              | c2 :: rest4 =>
                  if c2 == ',' then
                    (parseMembers fuel rest4).map
                      (fun p => ((String.mk kcs, v) :: p.1, p.2))
                  else if c2 == rbrace then some ([(String.mk kcs, v)], rest4)
                  else none
          | _ => none
      else none

end

/-- `json.loads`: parse one value, then require only whitespace to remain.
The fuel `s.length + 1` dominates the nesting depth of any value the
input can contain. -/
def loads (s : List Char) : Option Json :=
  match parseVal (s.length + 1) s with
  | some (v, rest) => if (skipWs rest).isEmpty then some v else none
  | none => none

/-- The outcome of one process invocation: normal termination with an exit
code, the text printed to stdout and the diagnostics printed to stderr —
or a crash from an uncaught Python exception (the interpreter then prints
a traceback and exits non-zero). -/
inductive MainResult where
  | exited (code : Nat) (stdout : List Char) (stderr : List Diag)
  | crashed (e : PyExc)

/-- Embeds `main` (lines 76-87).  `argv` models `sys.argv[1:]`, so the
source conditions `len(sys.argv) == 2 and sys.argv[1] == '--list'` and
`len(sys.argv) == 3 and sys.argv[1] == '--host'` become matches on a one-
and a two-element list.  `print` appends a newline; host mode prints
`json.dumps({})`, i.e. two braces; the fallthrough prints the usage line
to stderr and exits with status 1. -/
def main (argv : List String) (run : ExternalRun) : MainResult :=
  match argv with
  | [a1] =>
      if a1 == "--list" then
        match generate_inventory run with
        | Except.ok (inv, ds) => MainResult.exited 0 (dumps inv ++ ['\n']) ds
        | Except.error e => MainResult.crashed e
      else MainResult.exited 1 [] [Diag.usage]
  | [a1, _] =>
      if a1 == "--host" then MainResult.exited 0 [lbrace, rbrace, '\n'] []
      else MainResult.exited 1 [] [Diag.usage]
  | _ => MainResult.exited 1 [] [Diag.usage]

/-- A Terraform output record, per the spec's data model (section 3): a
mapping holding the fields of one output, among them `value`. -/
abbrev Record := List (String × Json)

/-- A ProvisioningOutput per the spec's data model (section 3): a mapping
from output name to record. -/
abbrev ProvOutput := List (String × Record)

/-- Injection of a ProvisioningOutput into the parsed-JSON universe. -/
def ProvOutput.toJson (tf : ProvOutput) : Json :=
  Json.obj (tf.map (fun kv => (kv.1, Json.obj kv.2)))

/-- Key lookup on a JSON value: the stored value when the receiver is an
object holding the key, `none` otherwise. -/
def jLookup (j : Json) (k : String) : Option Json :=
  match j with
  | Json.obj kvs => alistGet kvs k
  | _ => none

/-- Path lookup on a JSON value (`jPath j ["a", "b"]` reads `j.a.b`). -/
def jPath (j : Json) : List String → Option Json
  | [] => some j
  | k :: ks =>
      match jLookup j k with
      | some v => jPath v ks
      | none => none

/-- The keys of the `_meta.hostvars` mapping of an inventory document. -/
def hostvarsKeys (doc : Json) : List String :=
  match jPath doc ["_meta", "hostvars"] with
  | some (Json.obj hv) => hv.map (fun kv => kv.1)
  | _ => []

/-- The inventory invariant of spec section 3: every host identifier
appearing in any group's `hosts` sequence occurs as a key of
`_meta.hostvars`.  Group entries are every top-level key except `_meta`;
a group without a `hosts` list references no hosts. -/
def hostsCovered (doc : Json) : Bool :=
  match doc with
  | Json.obj kvs =>
      kvs.all (fun kv =>
        if kv.1 == "_meta" then true
        else
          match kv.2 with
          | Json.obj g =>
              (match alistGet g "hosts" with
               | some (Json.arr hs) =>
                   hs.all (fun h =>
                     match h with
                     | Json.str hn => (hostvarsKeys doc).contains hn
                     | _ => false)
               | _ => true)
          | _ => true)
  | _ => false

/-- Key absent, or present with a record of mapping shape — the domain on
which Python's `.get` chain cannot raise. -/
def recordShaped : Option Json → Prop
  | none => True
  | some (Json.obj _) => True
  | some _ => False

/-- An "empty" extracted value in the sense of the spec's missing/empty
address condition: the empty string, the empty list or the empty mapping. -/
def emptyVal (v : Json) : Prop :=
  v = Json.str "" ∨ v = Json.arr [] ∨ v = Json.obj []

/-- The record stored under key `k`, or the empty record — the value of
`terraform_output.get(k, {})` on a ProvisioningOutput. -/
def recOrEmpty (tf : ProvOutput) (k : String) : Record :=
  match alistGet tf k with
  | some r => r
  | none => []

/-- The address the builder extracts:
`terraform_output.get('ec2_public_ip', {}).get('value', '')`. -/
def ec2Val (tf : ProvOutput) : Json :=
  pyGetD (recOrEmpty tf "ec2_public_ip") "value" (Json.str "")

/-- The domain the builder extracts:
`terraform_output.get('vault_domain', {}).get('value', 'vault.example.com')`. -/
def domVal (tf : ProvOutput) : Json :=
  pyGetD (recOrEmpty tf "vault_domain") "value" (Json.str "vault.example.com")

/-- The `vault_domain` value actually present in a ProvisioningOutput,
if any: the `value` field of the `vault_domain` record. -/
def domSrc (tf : ProvOutput) : Option Json :=
  (alistGet tf "vault_domain").bind (fun r => alistGet r "value")

/-- A suffix safe to place after a serialized number: it does not start
with a digit, so greedy digit consumption stops at the boundary. -/
def numSafe : List Char → Prop
  | [] => True
  | c :: _ => isDigitCh c = false

mutual

/-- Parser fuel sufficient for a serialized value: one unit per nesting
level of the value. -/
def jfuel : Json → Nat
  | Json.arr l => 1 + lfuel l
  | Json.obj l => 1 + mfuel l
  | _ => 1

/-- Fuel sufficient for `parseElems` on a serialized element list. -/
def lfuel : List Json → Nat
  | [] => 0
  | x :: xs => 1 + max (jfuel x) (lfuel xs)

/-- Fuel sufficient for `parseMembers` on a serialized member list. -/
def mfuel : List (String × Json) → Nat
  | [] => 0
  | kv :: kvs => 1 + max (jfuel kv.2) (mfuel kvs)

end

lemma alistGet_map_obj (tf : ProvOutput) (k : String) :
    alistGet (tf.map (fun kv => (kv.1, Json.obj kv.2))) k = (alistGet tf k).map Json.obj := by
  induction tf with
  | nil => rfl
  | cons kv rest ih =>
      by_cases h : kv.1 == k
      · simp [alistGet, List.find?_cons, h]
      · simp only [alistGet, List.map_cons, List.find?_cons] at *
        simp only [h] at *
        exact ih

lemma pyGetD_map_obj (tf : ProvOutput) (k : String) :
    pyGetD (tf.map (fun kv => (kv.1, Json.obj kv.2))) k (Json.obj []) =
      Json.obj (recOrEmpty tf k) := by
  rcases h : alistGet tf k with _ | r <;>
    simp [pyGetD, alistGet_map_obj, recOrEmpty, h]

lemma build_obj_of_shapes (tfj : List (String × Json)) (r1 r2 : Record)
    (h1 : pyGetD tfj "ec2_public_ip" (Json.obj []) = Json.obj r1)
    (h2 : pyGetD tfj "vault_domain" (Json.obj []) = Json.obj r2) :
    build (Json.obj tfj) =
      Except.ok
        (if truthy (pyGetD r1 "value" (Json.str "")) then
          (fullInventory (pyGetD r1 "value" (Json.str ""))
            (pyGetD r2 "value" (Json.str "vault.example.com")), [])
         else (emptyInventory, [Diag.missingIp])) := by
  cases htr : truthy (pyGetD r1 "value" (Json.str "")) <;>
    simp [build, jsonGetD, h1, h2, htr]

/-- On a well-shaped ProvisioningOutput (every record a mapping, per the
spec's data model) the builder never raises: it returns the full document
when the extracted address is truthy and the sentinel otherwise. -/
lemma build_on_prov (tf : ProvOutput) :
    build tf.toJson =
      Except.ok
        (if truthy (ec2Val tf) then (fullInventory (ec2Val tf) (domVal tf), [])
         else (emptyInventory, [Diag.missingIp])) :=
  build_obj_of_shapes _ _ _ (pyGetD_map_obj tf "ec2_public_ip")
    (pyGetD_map_obj tf "vault_domain")

lemma domVal_eq (tf : ProvOutput) :
    domVal tf = (domSrc tf).getD (Json.str "vault.example.com") := by
  rcases hd : alistGet tf "vault_domain" with _ | r
  · simp only [domVal, domSrc, recOrEmpty, pyGetD, hd]
    rfl
  · rcases hv : alistGet r "value" with _ | v <;>
      · simp only [domVal, domSrc, recOrEmpty, pyGetD, hd, hv]
        simp [hv]

lemma hostsCovered_full (a b : Json) : hostsCovered (fullInventory a b) = true := rfl

lemma build_obj_total (tf : List (String × Json)) :
    (∃ p, build (Json.obj tf) = Except.ok p) ∨
      build (Json.obj tf) = Except.error PyExc.attributeError := by
  rcases hx1 : pyGetD tf "ec2_public_ip" (Json.obj []) with _ | b | n | s | l | o <;>
    try (right; simp [build, jsonGetD, hx1]; done)
  rcases hx2 : pyGetD tf "vault_domain" (Json.obj []) with _ | b2 | n2 | s2 | l2 | o2 <;>
    try (right; simp [build, jsonGetD, hx1, hx2]; done)
  left
  rw [build_obj_of_shapes tf o o2 hx1 hx2]
  exact ⟨_, rfl⟩

/-- C1: a ProvisioningOutput whose `ec2_public_ip` record carries a
non-empty string `value` yields an inventory whose
`_meta.hostvars.vault_server.ansible_host` is exactly that value. -/
theorem C1_ansible_host_tracks_value (tf : ProvOutput) (r : Record) (s : String)
    (h1 : alistGet tf "ec2_public_ip" = some r)
    (h2 : alistGet r "value" = some (Json.str s))
    (h3 : s ≠ "") :
    ∃ doc ds, build tf.toJson = Except.ok (doc, ds) ∧
      jPath doc ["_meta", "hostvars", "vault_server", "ansible_host"] = some (Json.str s) := by
  have he : ec2Val tf = Json.str s := by
    simp only [ec2Val, recOrEmpty, h1, pyGetD, h2]
  have hts : truthy (Json.str s) = true := by
    simpa [truthy] using h3
  refine ⟨fullInventory (Json.str s) (domVal tf), [], ?_, ?_⟩
  · rw [build_on_prov]
    simp [he, hts]
  · rfl

/-- C1 witness: the spec's scenario input. -/
theorem C1_witness :
    ∃ doc ds,
      build (ProvOutput.toJson
        [("ec2_public_ip", [("value", Json.str "203.0.113.10")]),
         ("vault_domain", [("value", Json.str "vault.test")])]) = Except.ok (doc, ds) ∧
      jPath doc ["_meta", "hostvars", "vault_server", "ansible_host"] =
        some (Json.str "203.0.113.10") :=
  C1_ansible_host_tracks_value _ _ _ rfl rfl (by decide)

/-- C2: when the `ec2_public_ip` key is absent, or its record's `value`
field is absent or empty, the builder returns the empty-inventory
sentinel — empty `_meta.hostvars`, no group keys — and reports the
missing address on stderr. -/
theorem C2_missing_or_empty_address_yields_sentinel (tf : ProvOutput)
    (h : alistGet tf "ec2_public_ip" = none
       ∨ (∃ r, alistGet tf "ec2_public_ip" = some r ∧ alistGet r "value" = none)
       ∨ (∃ r v, alistGet tf "ec2_public_ip" = some r ∧ alistGet r "value" = some v ∧
            emptyVal v)) :
    build tf.toJson = Except.ok (emptyInventory, [Diag.missingIp]) ∧
      jPath emptyInventory ["_meta", "hostvars"] = some (Json.obj []) ∧
      ∀ k, k ≠ "_meta" → jLookup emptyInventory k = none := by
  have ht : truthy (ec2Val tf) = false := by
    rcases h with h | ⟨r, h1, h2⟩ | ⟨r, v, h1, h2, hv⟩
    · simp only [ec2Val, recOrEmpty, h, pyGetD]
      rfl
    · simp only [ec2Val, recOrEmpty, h1, pyGetD, h2]
      rfl
    · simp only [ec2Val, recOrEmpty, h1, pyGetD, h2]
      rcases hv with rfl | rfl | rfl <;> rfl
  refine ⟨?_, rfl, ?_⟩
  · rw [build_on_prov]
    simp [ht]
  · intro k hk
    have hb : ("_meta" == k) = false := beq_eq_false_iff_ne.mpr (fun hh => hk hh.symm)
    simp [jLookup, emptyInventory, alistGet, List.find?, hb]

/-- C2 witness: `ec2_public_ip` absent entirely. -/
theorem C2_witness :
    build (ProvOutput.toJson [("vault_domain", [("value", Json.str "vault.test")])]) =
        Except.ok (emptyInventory, [Diag.missingIp]) ∧
      jPath emptyInventory ["_meta", "hostvars"] = some (Json.obj []) ∧
      ∀ k, k ≠ "_meta" → jLookup emptyInventory k = none :=
  C2_missing_or_empty_address_yields_sentinel _ (Or.inl rfl)

/-- C3: the dispatcher: `--list` alone exits 0 printing the serialized
inventory (2-space indentation, from `dumps`); `--host h` exits 0
printing `..` (the empty object); every other argument shape prints the
usage diagnostic on stderr and exits 1. -/
theorem C3_dispatcher_modes (run : ExternalRun) :
    (∀ inv ds, generate_inventory run = Except.ok (inv, ds) →
      main ["--list"] run = MainResult.exited 0 (dumps inv ++ ['\n']) ds)
    ∧ (∀ h, main ["--host", h] run = MainResult.exited 0 [lbrace, rbrace, '\n'] [])
    ∧ (∀ argv, argv ≠ ["--list"] → (∀ h, argv ≠ ["--host", h]) →
      main argv run = MainResult.exited 1 [] [Diag.usage]) := by
  refine ⟨?_, ?_, ?_⟩
  · intro inv ds h
    simp [main, h]
  · intro h
    simp [main]
  · intro argv hne hh
    rcases argv with _ | ⟨a, _ | ⟨b, _ | rest⟩⟩
    · rfl
    · by_cases ha : a = "--list"
      · exact absurd (by rw [ha]) hne
      · have hb : (a == "--list") = false := beq_eq_false_iff_ne.mpr ha
        simp [main, hb]
    · by_cases ha : a = "--host"
      · exact absurd (by rw [ha]) (hh b)
      · have hb : (a == "--host") = false := beq_eq_false_iff_ne.mpr ha
        simp [main, hb]
    · rfl

/-- C3 witness: one concrete run exercising all three argument shapes. -/
theorem C3_witness :
    main ["--list"]
        ⟨true, some (Json.obj [("ec2_public_ip", Json.obj [("value", Json.str "1.2.3.4")])])⟩ =
      MainResult.exited 0
        (dumps (fullInventory (Json.str "1.2.3.4") (Json.str "vault.example.com")) ++ ['\n'])
        [] ∧
    main ["--host", "vault_server"]
        ⟨true, some (Json.obj [("ec2_public_ip", Json.obj [("value", Json.str "1.2.3.4")])])⟩ =
      MainResult.exited 0 [lbrace, rbrace, '\n'] [] ∧
    main []
        ⟨true, some (Json.obj [("ec2_public_ip", Json.obj [("value", Json.str "1.2.3.4")])])⟩ =
      MainResult.exited 1 [] [Diag.usage] :=
  ⟨(C3_dispatcher_modes _).1 _ _ rfl,
   (C3_dispatcher_modes _).2.1 _,
   (C3_dispatcher_modes _).2.2 [] (by simp) (fun h => by simp)⟩

/-- C4: when the external command exits non-zero, or its stdout is not
valid JSON, the reader returns the empty mapping and reports the failure
on stderr (it is a total function of the run — it cannot raise). -/
theorem C4_fetch_failure_returns_empty_mapping (run : ExternalRun)
    (h : run.exitOk = false ∨ run.parsed = none) :
    (get_terraform_output run).1 = Json.obj [] ∧
      ((get_terraform_output run).2 = [Diag.cmdFailure] ∨
       (get_terraform_output run).2 = [Diag.parseFailure]) := by
  rcases run with ⟨ok, parsed⟩
  rcases h with h | h
  · simp only at h
    simp [get_terraform_output, h]
  · simp only at h
    cases ok <;> simp [get_terraform_output, h]

/-- C4 witness: a failing external command. -/
theorem C4_witness :
    (get_terraform_output ⟨false, none⟩).1 = Json.obj [] ∧
      ((get_terraform_output ⟨false, none⟩).2 = [Diag.cmdFailure] ∨
       (get_terraform_output ⟨false, none⟩).2 = [Diag.parseFailure]) :=
  C4_fetch_failure_returns_empty_mapping _ (Or.inl rfl)

/-- C5 counterexample: an output entry whose record is not a mapping —
`.get('value', ...)` on the string raises `AttributeError`, which the
`except KeyError` handler does not catch, so the exception propagates out
of the builder instead of yielding the sentinel.  This refutes the claim
that every lookup failure is caught inside `build()`. -/
theorem C5_counterexample :
    build (Json.obj [("ec2_public_ip", Json.str "203.0.113.10")]) =
      Except.error PyExc.attributeError := rfl

/-- C5 (amended): the builder never propagates a missing-key error — the
`except KeyError` handler covers that case (vacuously: `.get` never
raises it) — and on any output whose `ec2_public_ip` and `vault_domain`
records are mappings (or absent) it returns normally; but a non-mapping
record raises an uncaught attribute error, as the counterexample shows. -/
theorem C5_keyerror_never_escapes_but_shape_errors_do (tf : List (String × Json)) :
    build (Json.obj tf) ≠ Except.error PyExc.keyError ∧
    (recordShaped (alistGet tf "ec2_public_ip") →
      recordShaped (alistGet tf "vault_domain") →
      ∃ p, build (Json.obj tf) = Except.ok p) := by
  constructor
  · rcases build_obj_total tf with ⟨p, hp⟩ | hp <;> simp [hp]
  · intro hs1 hs2
    have h1 : ∃ r1, pyGetD tf "ec2_public_ip" (Json.obj []) = Json.obj r1 := by
      rcases ha : alistGet tf "ec2_public_ip" with _ | v
      · exact ⟨[], by simp [pyGetD, ha]⟩
      · rw [ha] at hs1
        rcases v with _ | _ | _ | _ | _ | flds <;> try (simp [recordShaped] at hs1)
        exact ⟨flds, by simp [pyGetD, ha]⟩
    have h2 : ∃ r2, pyGetD tf "vault_domain" (Json.obj []) = Json.obj r2 := by
      rcases ha : alistGet tf "vault_domain" with _ | v
      · exact ⟨[], by simp [pyGetD, ha]⟩
      · rw [ha] at hs2
        rcases v with _ | _ | _ | _ | _ | flds <;> try (simp [recordShaped] at hs2)
        exact ⟨flds, by simp [pyGetD, ha]⟩
    rcases h1 with ⟨r1, h1⟩
    rcases h2 with ⟨r2, h2⟩
    exact ⟨_, build_obj_of_shapes tf r1 r2 h1 h2⟩

/-- C5 witness: the empty output is record-shaped, so the amended theorem
applies and the builder returns normally. -/
theorem C5_witness : ∃ p, build (Json.obj []) = Except.ok p :=
  (C5_keyerror_never_escapes_but_shape_errors_do []).2 trivial trivial

/-- C6: with a valid address present, a missing `vault_domain` value makes
the group vars carry the fixed default `vault.example.com`, and a present
one is used verbatim. -/
theorem C6_domain_defaulted_or_verbatim (tf : ProvOutput) (r : Record) (s : String)
    (h1 : alistGet tf "ec2_public_ip" = some r)
    (h2 : alistGet r "value" = some (Json.str s))
    (h3 : s ≠ "") :
    (domSrc tf = none →
      ∃ doc ds, build tf.toJson = Except.ok (doc, ds) ∧
        jPath doc ["vault_servers", "vars", "vault_domain"] =
          some (Json.str "vault.example.com"))
    ∧ (∀ v, domSrc tf = some v →
      ∃ doc ds, build tf.toJson = Except.ok (doc, ds) ∧
        jPath doc ["vault_servers", "vars", "vault_domain"] = some v) := by
  have he : ec2Val tf = Json.str s := by
    simp only [ec2Val, recOrEmpty, h1, pyGetD, h2]
  have hts : truthy (Json.str s) = true := by
    simpa [truthy] using h3
  constructor
  · intro hnone
    have hdv : domVal tf = Json.str "vault.example.com" := by
      rw [domVal_eq, hnone]
      rfl
    refine ⟨fullInventory (Json.str s) (Json.str "vault.example.com"), [], ?_, rfl⟩
    rw [build_on_prov]
    simp [he, hts, hdv]
  · intro v hv
    have hdv : domVal tf = v := by
      rw [domVal_eq, hv]
      rfl
    refine ⟨fullInventory (Json.str s) v, [], ?_, rfl⟩
    rw [build_on_prov]
    simp [he, hts, hdv]

/-- C6 witness: one run with the domain absent (default used) and one with
it present (used verbatim). -/
theorem C6_witness :
    (∃ doc ds,
      build (ProvOutput.toJson [("ec2_public_ip", [("value", Json.str "203.0.113.10")])]) =
          Except.ok (doc, ds) ∧
        jPath doc ["vault_servers", "vars", "vault_domain"] =
          some (Json.str "vault.example.com"))
    ∧ (∃ doc ds,
      build (ProvOutput.toJson
          [("ec2_public_ip", [("value", Json.str "203.0.113.10")]),
           ("vault_domain", [("value", Json.str "vault.test")])]) =
          Except.ok (doc, ds) ∧
        jPath doc ["vault_servers", "vars", "vault_domain"] = some (Json.str "vault.test")) :=
  ⟨(C6_domain_defaulted_or_verbatim
      [("ec2_public_ip", [("value", Json.str "203.0.113.10")])]
      [("value", Json.str "203.0.113.10")] "203.0.113.10" rfl rfl (by decide)).1 rfl,
   (C6_domain_defaulted_or_verbatim
      [("ec2_public_ip", [("value", Json.str "203.0.113.10")]),
       ("vault_domain", [("value", Json.str "vault.test")])]
      [("value", Json.str "203.0.113.10")] "203.0.113.10" rfl rfl (by decide)).2
     (Json.str "vault.test") rfl⟩

/-- C7: every document the builder produces on a ProvisioningOutput
satisfies the inventory invariant — each host referenced in any group's
`hosts` appears as a key of `_meta.hostvars` (the sentinel has no groups;
the full document references exactly `vault_server`, which is present). -/
theorem C7_hosts_covered_invariant (tf : ProvOutput) :
    ∃ doc ds, build tf.toJson = Except.ok (doc, ds) ∧ hostsCovered doc = true := by
  cases ht : truthy (ec2Val tf)
  · refine ⟨emptyInventory, [Diag.missingIp], ?_, rfl⟩
    rw [build_on_prov]
    simp [ht]
  · refine ⟨fullInventory (ec2Val tf) (domVal tf), [], ?_, hostsCovered_full _ _⟩
    rw [build_on_prov]
    simp [ht]

/-- C9: the builder is a pure function of the parsed provisioning output —
the source reads no global mutable state, clock or counter — so equal
inputs give structurally identical results (documents and diagnostics). -/
theorem C9_build_deterministic (tf1 tf2 : Json) (h : tf1 = tf2) :
    build tf1 = build tf2 := by rw [h]

/-- C9 witness. -/
theorem C9_witness :
    build (Json.obj [("ec2_public_ip", Json.obj [("value", Json.str "1.2.3.4")])]) =
      build (Json.obj [("ec2_public_ip", Json.obj [("value", Json.str "1.2.3.4")])]) :=
  C9_build_deterministic _ _ rfl

/-- C10: the builder reads only the `ec2_public_ip` and `vault_domain`
entries: two outputs agreeing on those two entries produce identical
results, whatever their other entries. -/
theorem C10_depends_only_on_two_keys (tf1 tf2 : List (String × Json))
    (h1 : alistGet tf1 "ec2_public_ip" = alistGet tf2 "ec2_public_ip")
    (h2 : alistGet tf1 "vault_domain" = alistGet tf2 "vault_domain") :
    build (Json.obj tf1) = build (Json.obj tf2) := by
  simp only [build, jsonGetD, pyGetD, h1, h2]

/-- C10 witness: an unrelated extra entry does not change the result. -/
theorem C10_witness :
    build (Json.obj [("ec2_public_ip", Json.obj [("value", Json.str "1.2.3.4")])]) =
      build (Json.obj
        [("extra_output", Json.num 7),
         ("ec2_public_ip", Json.obj [("value", Json.str "1.2.3.4")])]) :=
  C10_depends_only_on_two_keys _ _ rfl rfl

lemma digitChar_toNat {d : Nat} (h : d < 10) : (digitChar d).toNat = 48 + d := by
  interval_cases d <;> rfl

lemma jfuel_pos (j : Json) : 1 ≤ jfuel j := by
  cases j <;> simp [jfuel]

lemma natChars_digits (n : Nat) : ∀ c ∈ natChars n, isDigitCh c = true := by
  induction n using Nat.strong_induction_on with
  | _ n ih =>
    by_cases h : n < 10
    · rw [natChars, if_pos h]
      intro c hc
      rcases List.mem_singleton.mp hc with rfl
      simp [isDigitCh, digitChar_toNat h]
      omega
    · rw [natChars, if_neg h]
      intro c hc
      rcases List.mem_append.mp hc with hc | hc
      · exact ih (n / 10) (Nat.div_lt_self (by omega) (by omega)) c hc
      · rcases List.mem_singleton.mp hc with rfl
        have h10 : n % 10 < 10 := Nat.mod_lt _ (by omega)
        simp [isDigitCh, digitChar_toNat h10]
        omega

lemma digitsVal_append_one (ds : List Char) (c : Char) :
    digitsVal (ds ++ [c]) = digitsVal ds * 10 + dval c := by
  simp [digitsVal, List.foldl_append]

lemma digitsVal_natChars (n : Nat) : digitsVal (natChars n) = n := by
  induction n using Nat.strong_induction_on with
  | _ n ih =>
    by_cases h : n < 10
    · rw [natChars, if_pos h]
      simp [digitsVal, dval, digitChar_toNat h]
    · rw [natChars, if_neg h, digitsVal_append_one,
        ih (n / 10) (Nat.div_lt_self (by omega) (by omega))]
      have h10 : n % 10 < 10 := Nat.mod_lt _ (by omega)
      simp [dval, digitChar_toNat h10]
      omega

lemma natChars_head (n : Nat) :
    ∃ c cs, natChars n = c :: cs ∧ isDigitCh c = true ∧ (n ≠ 0 → (c == '0') = false) := by
  induction n using Nat.strong_induction_on with
  | _ n ih =>
    by_cases h : n < 10
    · refine ⟨digitChar n, [], by rw [natChars, if_pos h], ?_, ?_⟩
      · simp [isDigitCh, digitChar_toNat h]
        omega
      · intro hn
        apply beq_eq_false_iff_ne.mpr
        intro he
        have h48 : (digitChar n).toNat = 48 := by rw [he]; rfl
        rw [digitChar_toNat h] at h48
        omega
    · obtain ⟨c, cs, hrep, hdig, hz⟩ := ih (n / 10) (Nat.div_lt_self (by omega) (by omega))
      refine ⟨c, cs ++ [digitChar (n % 10)], ?_, hdig, fun _ => hz (by omega)⟩
      rw [natChars, if_neg h, hrep]
      simp

lemma digit_ne {c x : Char} (hd : isDigitCh c = true)
    (hx : x.toNat < 48 ∨ 57 < x.toNat) : (c == x) = false := by
  apply beq_eq_false_iff_ne.mpr
  rintro rfl
  simp [isDigitCh] at hd
  omega

lemma digit_ne' {c x : Char} (hd : isDigitCh c = true)
    (hx : x.toNat < 48 ∨ 57 < x.toNat) : ¬(c = x) := by
  rintro rfl
  simp [isDigitCh] at hd
  omega

lemma digit_not_ws {c : Char} (hd : isDigitCh c = true) : isWsCh c = false := by
  simp [isWsCh, digit_ne (x := ' ') hd (by decide), digit_ne (x := '\t') hd (by decide),
    digit_ne (x := '\n') hd (by decide), digit_ne (x := '\r') hd (by decide)]

lemma not_ws_props {c : Char} (h : isWsCh c = false) :
    ¬(c = ' ') ∧ ¬(c = '\t') ∧ ¬(c = '\n') ∧ ¬(c = '\x0d') := by
  refine ⟨?_, ?_, ?_, ?_⟩ <;> rintro rfl <;> simp [isWsCh] at h

lemma takeDigits_exact (ds suf : List Char) (hd : ∀ c ∈ ds, isDigitCh c = true)
    (hs : numSafe suf) : takeDigits (ds ++ suf) = (ds, suf) := by
  induction ds with
  | nil =>
      cases suf with
      | nil => rfl
      | cons c cs =>
          simp only [numSafe] at hs
          simp [takeDigits, hs]
  | cons c cs ih =>
      have hc : isDigitCh c = true := hd c (by simp)
      simp [takeDigits, hc, ih (fun x hx => hd x (by simp [hx]))]

lemma parseNat_natChars (n : Nat) (suf : List Char) (hs : numSafe suf) :
    parseNat (natChars n ++ suf) = some (n, suf) := by
  by_cases h0 : n = 0
  · subst h0
    rw [natChars, if_pos (by omega : (0 : Nat) < 10)]
    have hz : digitChar 0 = '0' := by decide
    simp [hz, parseNat]
  · obtain ⟨c, cs, hrep, hdig, hz⟩ := natChars_head n
    have htd : takeDigits ((c :: cs) ++ suf) = (c :: cs, suf) :=
      takeDigits_exact _ _ (by rw [← hrep]; exact natChars_digits n) hs
    rw [hrep]
    simp only [List.cons_append, parseNat, hz h0, hdig, Bool.false_eq_true, if_false, if_true]
    rw [← List.cons_append, htd]
    rw [show (c :: cs) = natChars n from hrep.symm, digitsVal_natChars]

lemma skipWs_append_ws (w s : List Char) (hw : ∀ c ∈ w, isWsCh c = true) :
    skipWs (w ++ s) = skipWs s := by
  induction w with
  | nil => rfl
  | cons c cs ih =>
      simp only [List.cons_append, skipWs, hw c (by simp), if_true]
      exact ih (fun x hx => hw x (by simp [hx]))

lemma skipWs_not_ws {c : Char} (s : List Char) (h : isWsCh c = false) :
    skipWs (c :: s) = c :: s := by
  simp [skipWs, h]

lemma nlc_ws (d : Nat) : ∀ c ∈ nlc d, isWsCh c = true := by
  intro c hc
  simp only [nlc, List.mem_cons] at hc
  rcases hc with rfl | hc
  · rfl
  · rw [List.eq_of_mem_replicate hc]
    rfl

lemma hexVal_hexDigitChar : ∀ d, d < 16 → hexVal (hexDigitChar d) = some d := by decide

lemma char_valid_cases (c : Char) :
    c.toNat < 0xd800 ∨ (0xe000 ≤ c.toNat ∧ c.toNat < 0x110000) := by
  rcases c.valid with h | ⟨h1, h2⟩
  · exact Or.inl h
  · exact Or.inr ⟨h1, h2⟩

set_option maxRecDepth 8000 in
lemma psb_u_nonsurrogate (t : Nat) (rest : List Char) (hlt : t < 0x10000)
    (hs1 : ¬(0xd800 ≤ t ∧ t < 0xdc00)) (hs2 : ¬(0xdc00 ≤ t ∧ t < 0xe000)) :
    parseStrBody ('\\' :: 'u' :: (hex4 t ++ rest)) =
      (parseStrBody rest).map (fun p => (Char.ofNat t :: p.1, p.2)) := by
  have e1 : hexVal (hexDigitChar (t / 4096 % 16)) = some (t / 4096 % 16) :=
    hexVal_hexDigitChar _ (by omega)
  have e2 : hexVal (hexDigitChar (t / 256 % 16)) = some (t / 256 % 16) :=
    hexVal_hexDigitChar _ (by omega)
  have e3 : hexVal (hexDigitChar (t / 16 % 16)) = some (t / 16 % 16) :=
    hexVal_hexDigitChar _ (by omega)
  have e4 : hexVal (hexDigitChar (t % 16)) = some (t % 16) :=
    hexVal_hexDigitChar _ (by omega)
  have hn : ((t / 4096 % 16 * 16 + t / 256 % 16) * 16 + t / 16 % 16) * 16 + t % 16 = t := by
    omega
  simp [hex4, parseStrBody, parseEsc, parseU, e1, e2, e3, e4, hn, hs1, hs2]

set_option maxRecDepth 8000 in
lemma psb_u_high (t : Nat) (rest : List Char) (hs : 0xd800 ≤ t ∧ t < 0xdc00) :
    parseStrBody ('\\' :: 'u' :: (hex4 t ++ rest)) = parseLow t rest := by
  have e1 : hexVal (hexDigitChar (t / 4096 % 16)) = some (t / 4096 % 16) :=
    hexVal_hexDigitChar _ (by omega)
  have e2 : hexVal (hexDigitChar (t / 256 % 16)) = some (t / 256 % 16) :=
    hexVal_hexDigitChar _ (by omega)
  have e3 : hexVal (hexDigitChar (t / 16 % 16)) = some (t / 16 % 16) :=
    hexVal_hexDigitChar _ (by omega)
  have e4 : hexVal (hexDigitChar (t % 16)) = some (t % 16) :=
    hexVal_hexDigitChar _ (by omega)
  have hn : ((t / 4096 % 16 * 16 + t / 256 % 16) * 16 + t / 16 % 16) * 16 + t % 16 = t := by
    omega
  simp [hex4, parseStrBody, parseEsc, parseU, e1, e2, e3, e4, hn, hs.1, hs.2]

set_option maxRecDepth 8000 in
lemma parseLow_pair (n m : Nat) (rest : List Char) (hm : 0xdc00 ≤ m ∧ m < 0xe000) :
    parseLow n ('\\' :: 'u' :: (hex4 m ++ rest)) =
      (parseStrBody rest).map
        (fun p => (Char.ofNat (0x10000 + (n - 0xd800) * 0x400 + (m - 0xdc00)) :: p.1, p.2)) := by
  have f1 : hexVal (hexDigitChar (m / 4096 % 16)) = some (m / 4096 % 16) :=
    hexVal_hexDigitChar _ (by omega)
  have f2 : hexVal (hexDigitChar (m / 256 % 16)) = some (m / 256 % 16) :=
    hexVal_hexDigitChar _ (by omega)
  have f3 : hexVal (hexDigitChar (m / 16 % 16)) = some (m / 16 % 16) :=
    hexVal_hexDigitChar _ (by omega)
  have f4 : hexVal (hexDigitChar (m % 16)) = some (m % 16) :=
    hexVal_hexDigitChar _ (by omega)
  have hn : ((m / 4096 % 16 * 16 + m / 256 % 16) * 16 + m / 16 % 16) * 16 + m % 16 = m := by
    omega
  simp [hex4, parseLow, f1, f2, f3, f4, hn, hm.1, hm.2]

set_option maxRecDepth 8000 in
lemma psb_u_pair (t : Nat) (rest : List Char) (hge : 0x10000 ≤ t) (hlt : t < 0x110000) :
    parseStrBody ('\\' :: 'u' :: (hex4 (0xd800 + (t - 0x10000) / 0x400) ++
        ('\\' :: 'u' :: (hex4 (0xdc00 + (t - 0x10000) % 0x400) ++ rest)))) =
      (parseStrBody rest).map (fun p => (Char.ofNat t :: p.1, p.2)) := by
  rw [psb_u_high _ _ (by constructor <;> omega),
    parseLow_pair _ _ _ (by constructor <;> omega)]
  have hfin : 0x10000 + (0xd800 + (t - 0x10000) / 0x400 - 0xd800) * 0x400 +
      (0xdc00 + (t - 0x10000) % 0x400 - 0xdc00) = t := by omega
  rw [hfin]

set_option maxRecDepth 8000 in
lemma parseStrBody_escChar (c : Char) (rest : List Char) :
    parseStrBody (escChar c ++ rest) =
      (parseStrBody rest).map (fun p => (c :: p.1, p.2)) := by
  by_cases h1 : c = '"'
  · subst h1
    simp [escChar, parseStrBody, parseEsc]
  by_cases h2 : c = '\\'
  · subst h2
    simp [escChar, parseStrBody, parseEsc]
  by_cases h3 : c = '\x08'
  · subst h3
    simp [escChar, parseStrBody, parseEsc]
  by_cases h4 : c = '\x09'
  · subst h4
    simp [escChar, parseStrBody, parseEsc]
  by_cases h5 : c = '\x0a'
  · subst h5
    simp [escChar, parseStrBody, parseEsc]
  by_cases h6 : c = '\x0c'
  · subst h6
    simp [escChar, parseStrBody, parseEsc]
  by_cases h7 : c = '\x0d'
  · subst h7
    simp [escChar, parseStrBody, parseEsc]
  have b1 := beq_eq_false_iff_ne.mpr h1
  have b2 := beq_eq_false_iff_ne.mpr h2
  have b3 := beq_eq_false_iff_ne.mpr h3
  have b4 := beq_eq_false_iff_ne.mpr h4
  have b5 := beq_eq_false_iff_ne.mpr h5
  have b6 := beq_eq_false_iff_ne.mpr h6
  have b7 := beq_eq_false_iff_ne.mpr h7
  by_cases hlo : c.toNat < 0x20 ∨ 0x7e < c.toNat
  · by_cases hbmp : c.toNat < 0x10000
    · -- single \uXXXX escape of a non-surrogate scalar value
      have hval := char_valid_cases c
      have hs1 : ¬(0xd800 ≤ c.toNat ∧ c.toNat < 0xdc00) := by omega
      have hs2 : ¬(0xdc00 ≤ c.toNat ∧ c.toNat < 0xe000) := by omega
      simp only [escChar, b1, b2, b3, b4, b5, b6, b7, Bool.false_eq_true, if_false,
        decide_eq_true_eq]
      rw [if_pos (by simpa using hlo), if_pos hbmp]
      simp only [List.cons_append]
      rw [psb_u_nonsurrogate c.toNat rest hbmp hs1 hs2, Char.ofNat_toNat]
    · -- astral character: surrogate-pair escape
      have hge : 0x10000 ≤ c.toNat := by omega
      have hlt : c.toNat < 0x110000 := by
        rcases char_valid_cases c with h | ⟨_, h⟩ <;> omega
      simp only [escChar, b1, b2, b3, b4, b5, b6, b7, Bool.false_eq_true, if_false,
        decide_eq_true_eq]
      rw [if_pos (by simpa using hlo), if_neg hbmp]
      simp only [List.cons_append, List.append_assoc]
      rw [psb_u_pair c.toNat rest hge hlt, Char.ofNat_toNat]
  · -- printable ASCII other than quote and backslash: emitted verbatim
    have hge : ¬(c.toNat < 0x20) := by omega
    have hle : ¬(0x7e < c.toNat) := by omega
    simp only [escChar, b1, b2, b3, b4, b5, b6, b7, Bool.false_eq_true, if_false]
    rw [if_neg (by simp [hge, hle])]
    simp [parseStrBody, b1, b2, hge]

lemma escList_cons (c : Char) (cs : List Char) :
    escList (c :: cs) = escChar c ++ escList cs := rfl

lemma parseStrBody_escList (cs suf : List Char) :
    parseStrBody (escList cs ++ '"' :: suf) = some (cs, suf) := by
  induction cs with
  | nil => simp [escList, parseStrBody]
  | cons c cs ih =>
      rw [escList_cons, List.append_assoc, parseStrBody_escChar, ih]
      rfl

lemma string_mk_data (s : String) : String.mk s.data = s := rfl

lemma serVal_shape (d : Nat) (j : Json) :
    ∃ c cs, serVal d j = c :: cs ∧ isWsCh c = false ∧ (c == ']') = false := by
  cases j with
  | null => exact ⟨'n', ['u', 'l', 'l'], by simp [serVal], by decide, by decide⟩
  | bool b =>
      cases b
      · exact ⟨'f', ['a', 'l', 's', 'e'], by simp [serVal], by decide, by decide⟩
      · exact ⟨'t', ['r', 'u', 'e'], by simp [serVal], by decide, by decide⟩
  | num n =>
      cases n with
      | ofNat m =>
          obtain ⟨c, cs, hrep, hdig, _⟩ := natChars_head m
          exact ⟨c, cs, by simp [serVal, intChars, hrep], digit_not_ws hdig,
            digit_ne hdig (by decide)⟩
      | negSucc m =>
          exact ⟨'-', natChars (m + 1), by simp [serVal, intChars], by decide, by decide⟩
  | str s =>
      exact ⟨'"', escList s.data ++ ['"'], by simp [serVal, serStr], by decide, by decide⟩
  | arr l =>
      cases l with
      | nil => exact ⟨'[', [']'], by simp [serVal, serArr], by decide, by decide⟩
      | cons x xs =>
          exact ⟨'[', nlc (d + 1) ++ serVal (d + 1) x ++ serArrRest (d + 1) xs ++ nlc d ++ [']'],
            by simp [serVal, serArr], by decide, by decide⟩
  | obj l =>
      cases l with
      | nil => exact ⟨lbrace, [rbrace], by simp [serVal, serObj], by decide, by decide⟩
      | cons kv kvs =>
          exact ⟨lbrace,
            nlc (d + 1) ++ serMember (d + 1) kv ++ serObjRest (d + 1) kvs ++ nlc d ++ [rbrace],
            by simp [serVal, serObj], by decide, by decide⟩

lemma serMember_eq (d : Nat) (kv : String × Json) :
    serMember d kv = '"' :: (escList kv.1.data ++ ('"' :: ':' :: ' ' :: serVal d kv.2)) := by
  cases kv
  simp [serMember, serStr, List.cons_append, List.append_assoc]

lemma numSafe_serArrRest (d e : Nat) (xs : List Json) (t : List Char) :
    numSafe (serArrRest d xs ++ (nlc e ++ t)) := by
  cases xs <;> simp [serArrRest, nlc, numSafe, isDigitCh]

lemma numSafe_serObjRest (d e : Nat) (kvs : List (String × Json)) (t : List Char) :
    numSafe (serObjRest d kvs ++ (nlc e ++ t)) := by
  cases kvs <;> simp [serObjRest, nlc, numSafe, isDigitCh]

lemma parseVal_ws (fuel : Nat) (w s : List Char) (hw : ∀ c ∈ w, isWsCh c = true) :
    parseVal (fuel + 1) (w ++ s) = parseVal (fuel + 1) s := by
  simp only [parseVal, skipWs_append_ws w s hw]

lemma skipWs_nlc (e : Nat) (s : List Char) : skipWs (nlc e ++ s) = skipWs s :=
  skipWs_append_ws _ _ (nlc_ws e)

lemma skipWs_replicate (k : Nat) (s : List Char) :
    skipWs (List.replicate k ' ' ++ s) = skipWs s := by
  induction k with
  | zero => rfl
  | succ k ih => simpa [List.replicate, skipWs, isWsCh] using ih

mutual

lemma parseVal_serVal : ∀ (j : Json) (fuel d : Nat) (suf : List Char),
    jfuel j ≤ fuel → numSafe suf → parseVal fuel (serVal d j ++ suf) = some (j, suf)
  | Json.null, fuel, d, suf, hf, hs => by
      obtain ⟨f, rfl⟩ : ∃ f, fuel = f + 1 := ⟨fuel - 1, by simp [jfuel] at hf; omega⟩
      simp [serVal, parseVal, skipWs, isWsCh, lbrace]
  | Json.bool true, fuel, d, suf, hf, hs => by
      obtain ⟨f, rfl⟩ : ∃ f, fuel = f + 1 := ⟨fuel - 1, by simp [jfuel] at hf; omega⟩
      simp [serVal, parseVal, skipWs, isWsCh, lbrace]
  | Json.bool false, fuel, d, suf, hf, hs => by
      obtain ⟨f, rfl⟩ : ∃ f, fuel = f + 1 := ⟨fuel - 1, by simp [jfuel] at hf; omega⟩
      simp [serVal, parseVal, skipWs, isWsCh, lbrace]
  | Json.num (Int.ofNat m), fuel, d, suf, hf, hs => by
      obtain ⟨f, rfl⟩ : ∃ f, fuel = f + 1 := ⟨fuel - 1, by simp [jfuel] at hf; omega⟩
      obtain ⟨c, cs, hrep, hdig, _⟩ := natChars_head m
      have hpn := parseNat_natChars m suf hs
      rw [hrep] at hpn
      rw [List.cons_append] at hpn
      simp only [serVal, intChars, hrep, List.cons_append]
      simp [parseVal, skipWs, isWsCh, hpn,
        digit_ne' hdig (by decide : (' ' : Char).toNat < 48 ∨ 57 < (' ' : Char).toNat),
        digit_ne' hdig (by decide : ('\t' : Char).toNat < 48 ∨ 57 < ('\t' : Char).toNat),
        digit_ne' hdig (by decide : ('\n' : Char).toNat < 48 ∨ 57 < ('\n' : Char).toNat),
        digit_ne' hdig (by decide : ('\x0d' : Char).toNat < 48 ∨ 57 < ('\x0d' : Char).toNat),
        digit_ne' hdig (by decide : lbrace.toNat < 48 ∨ 57 < lbrace.toNat),
        digit_ne' hdig (by decide : ('[' : Char).toNat < 48 ∨ 57 < ('[' : Char).toNat),
        digit_ne' hdig (by decide : ('"' : Char).toNat < 48 ∨ 57 < ('"' : Char).toNat),
        digit_ne' hdig (by decide : ('n' : Char).toNat < 48 ∨ 57 < ('n' : Char).toNat),
        digit_ne' hdig (by decide : ('t' : Char).toNat < 48 ∨ 57 < ('t' : Char).toNat),
        digit_ne' hdig (by decide : ('f' : Char).toNat < 48 ∨ 57 < ('f' : Char).toNat),
        digit_ne' hdig (by decide : ('-' : Char).toNat < 48 ∨ 57 < ('-' : Char).toNat)]
  | Json.num (Int.negSucc m), fuel, d, suf, hf, hs => by
      obtain ⟨f, rfl⟩ : ∃ f, fuel = f + 1 := ⟨fuel - 1, by simp [jfuel] at hf; omega⟩
      have hpn := parseNat_natChars (m + 1) suf hs
      simp only [serVal, intChars, List.cons_append]
      simp [parseVal, skipWs, isWsCh, hpn, lbrace, Int.negSucc_eq]
  | Json.str s, fuel, d, suf, hf, hs => by
      obtain ⟨f, rfl⟩ : ∃ f, fuel = f + 1 := ⟨fuel - 1, by simp [jfuel] at hf; omega⟩
      simp only [serVal, serStr, List.cons_append, List.append_assoc]
      simp [parseVal, skipWs, isWsCh, lbrace, parseStrBody_escList, string_mk_data]
  | Json.arr [], fuel, d, suf, hf, hs => by
      obtain ⟨f, rfl⟩ : ∃ f, fuel = f + 1 := ⟨fuel - 1, by simp [jfuel] at hf; omega⟩
      simp [serVal, serArr, parseVal, skipWs, isWsCh, lbrace]
  | Json.arr (x :: xs), fuel, d, suf, hf, hs => by
      obtain ⟨f, rfl⟩ : ∃ f, fuel = f + 1 :=
        ⟨fuel - 1, by have := jfuel_pos (Json.arr (x :: xs)); omega⟩
      have hlf : lfuel (x :: xs) ≤ f := by
        have h1 : jfuel (Json.arr (x :: xs)) = 1 + lfuel (x :: xs) := by simp [jfuel]
        omega
      obtain ⟨c, cs, hrep, hnw, hnb⟩ := serVal_shape (d + 1) x
      have hnb' : ¬(c = ']') := by
        intro hh
        rw [hh] at hnb
        simp at hnb
      obtain ⟨w1, w2, w3, w4⟩ := not_ws_props hnw
      have T := parseElems_serArr x xs f (d + 1) d [] suf (by simp) hlf
      rw [List.nil_append] at T
      simp only [hrep, nlc, List.cons_append, List.append_assoc] at T
      simp only [serVal, serArr, nlc, List.cons_append, List.append_assoc]
      simp [parseVal, skipWs, isWsCh, skipWs_replicate, hrep, w1, w2, w3, w4, hnb',
        lbrace, T]
  | Json.obj [], fuel, d, suf, hf, hs => by
      obtain ⟨f, rfl⟩ : ∃ f, fuel = f + 1 := ⟨fuel - 1, by simp [jfuel] at hf; omega⟩
      simp [serVal, serObj, parseVal, skipWs, isWsCh, lbrace, rbrace]
  | Json.obj (kv :: kvs), fuel, d, suf, hf, hs => by
      obtain ⟨f, rfl⟩ : ∃ f, fuel = f + 1 :=
        ⟨fuel - 1, by have := jfuel_pos (Json.obj (kv :: kvs)); omega⟩
      have hmf : mfuel (kv :: kvs) ≤ f := by
        have h1 : jfuel (Json.obj (kv :: kvs)) = 1 + mfuel (kv :: kvs) := by simp [jfuel]
        omega
      have T := parseMembers_serObj kv kvs f (d + 1) d [] suf (by simp) hmf
      rw [List.nil_append] at T
      simp only [serMember_eq, nlc, rbrace, List.cons_append, List.append_assoc] at T
      simp only [serVal, serObj, serMember_eq, nlc, List.cons_append, List.append_assoc]
      simp [parseVal, skipWs, isWsCh, skipWs_replicate, lbrace, rbrace, T]
termination_by j _ _ _ _ _ => sizeOf j
decreasing_by
  all_goals simp_wf

lemma parseElems_serArr : ∀ (x : Json) (xs : List Json) (fuel d e : Nat) (w suf : List Char),
    (∀ c ∈ w, isWsCh c = true) → lfuel (x :: xs) ≤ fuel →
    parseElems fuel (w ++ (serVal d x ++ (serArrRest d xs ++ (nlc e ++ (']' :: suf))))) =
      some (x :: xs, suf)
  | x, [], fuel, d, e, w, suf, hw, hf => by
      obtain ⟨f', rfl⟩ : ∃ f', fuel = f' + 2 := by
        refine ⟨fuel - 2, ?_⟩
        have h1 : lfuel [x] = 1 + max (jfuel x) (lfuel []) := by simp [lfuel]
        have := jfuel_pos x
        have := le_max_left (jfuel x) (lfuel ([] : List Json))
        omega
      have hfx : jfuel x ≤ f' + 1 := by
        have h1 : lfuel [x] = 1 + max (jfuel x) (lfuel []) := by simp [lfuel]
        have := le_max_left (jfuel x) (lfuel ([] : List Json))
        omega
      have hns : numSafe (serArrRest d [] ++ (nlc e ++ (']' :: suf))) :=
        numSafe_serArrRest d e [] _
      have hpv := parseVal_serVal x (f' + 1) d _ hfx hns
      rw [parseElems.eq_2]
      rw [parseVal_ws _ _ _ hw, hpv]
      simp [serArrRest, nlc, skipWs, isWsCh, skipWs_replicate]
  | x, y :: ys, fuel, d, e, w, suf, hw, hf => by
      have hmax : 1 + max (jfuel x) (lfuel (y :: ys)) ≤ fuel := by
        have h1 : lfuel (x :: y :: ys) = 1 + max (jfuel x) (lfuel (y :: ys)) := by
          rw [lfuel]
        omega
      obtain ⟨f', rfl⟩ : ∃ f', fuel = f' + 2 :=
        ⟨fuel - 2, by
          have := jfuel_pos x
          have := le_max_left (jfuel x) (lfuel (y :: ys))
          omega⟩
      have hfx : jfuel x ≤ f' + 1 := by
        have := le_max_left (jfuel x) (lfuel (y :: ys))
        omega
      have hfy : lfuel (y :: ys) ≤ f' + 1 := by
        have := le_max_right (jfuel x) (lfuel (y :: ys))
        omega
      have hns : numSafe (serArrRest d (y :: ys) ++ (nlc e ++ (']' :: suf))) :=
        numSafe_serArrRest d e (y :: ys) _
      have hpv := parseVal_serVal x (f' + 1) d _ hfx hns
      rw [parseElems.eq_2]
      rw [parseVal_ws _ _ _ hw, hpv]
      have T := parseElems_serArr y ys (f' + 1) d e (nlc d) suf (nlc_ws d) hfy
      simp only [nlc, List.cons_append, List.append_assoc] at T
      simp only [serArrRest, nlc, List.cons_append, List.append_assoc]
      simp [skipWs, isWsCh, skipWs_replicate, T]
termination_by x xs _ _ _ _ _ _ _ => 1 + sizeOf x + sizeOf xs
decreasing_by
  all_goals simp_wf
  all_goals omega

lemma parseMembers_serObj :
    ∀ (kv : String × Json) (kvs : List (String × Json)) (fuel d e : Nat) (w suf : List Char),
    (∀ c ∈ w, isWsCh c = true) → mfuel (kv :: kvs) ≤ fuel →
    parseMembers fuel
        (w ++ (serMember d kv ++ (serObjRest d kvs ++ (nlc e ++ (rbrace :: suf))))) =
      some (kv :: kvs, suf)
  | (k1, v1), [], fuel, d, e, w, suf, hw, hf => by
      obtain ⟨f', rfl⟩ : ∃ f', fuel = f' + 2 := by
        refine ⟨fuel - 2, ?_⟩
        have h1 : mfuel [(k1, v1)] = 1 + max (jfuel v1) (mfuel []) := by simp [mfuel]
        have := jfuel_pos v1
        have := le_max_left (jfuel v1) (mfuel ([] : List (String × Json)))
        omega
      have hfv : jfuel v1 ≤ f' + 1 := by
        have h1 : mfuel [(k1, v1)] = 1 + max (jfuel v1) (mfuel []) := by simp [mfuel]
        have := le_max_left (jfuel v1) (mfuel ([] : List (String × Json)))
        omega
      have hns : numSafe (serObjRest d [] ++ (nlc e ++ (rbrace :: suf))) :=
        numSafe_serObjRest d e [] _
      have hpv := parseVal_serVal v1 (f' + 1) d _ hfv hns
      have hpv' : parseVal (f' + 1)
          (' ' :: (serVal d v1 ++ (serObjRest d ([] : List (String × Json)) ++
            (nlc e ++ (rbrace :: suf))))) =
          some (v1, serObjRest d ([] : List (String × Json)) ++ (nlc e ++ (rbrace :: suf))) := by
        have hws : ∀ c ∈ [' '], isWsCh c = true := by simp [isWsCh]
        have habs := parseVal_ws f' [' ']
          (serVal d v1 ++ (serObjRest d ([] : List (String × Json)) ++
            (nlc e ++ (rbrace :: suf)))) hws
        simp only [List.cons_append, List.nil_append] at habs
        rw [habs, hpv]
      have hps := parseStrBody_escList k1.data
        (':' :: ' ' :: (serVal d v1 ++ (serObjRest d ([] : List (String × Json)) ++
          (nlc e ++ (rbrace :: suf)))))
      rw [parseMembers.eq_2]
      rw [skipWs_append_ws _ _ hw]
      simp only [serMember_eq, List.cons_append, List.append_assoc]
      rw [skipWs_not_ws _ (by decide)]
      simp only [serObjRest, nlc, rbrace, List.cons_append, List.append_assoc,
        List.nil_append] at hps hpv' ⊢
      simp [hps, skipWs, isWsCh, skipWs_replicate, hpv', string_mk_data, rbrace]
  | (k1, v1), kv2 :: kvs2, fuel, d, e, w, suf, hw, hf => by
      have hmax : 1 + max (jfuel v1) (mfuel (kv2 :: kvs2)) ≤ fuel := by
        have h1 : mfuel ((k1, v1) :: kv2 :: kvs2) =
            1 + max (jfuel v1) (mfuel (kv2 :: kvs2)) := by
          rw [mfuel]
        omega
      obtain ⟨f', rfl⟩ : ∃ f', fuel = f' + 2 :=
        ⟨fuel - 2, by
          have := jfuel_pos v1
          have := le_max_left (jfuel v1) (mfuel (kv2 :: kvs2))
          omega⟩
      have hfv : jfuel v1 ≤ f' + 1 := by
        have := le_max_left (jfuel v1) (mfuel (kv2 :: kvs2))
        omega
      have hfy : mfuel (kv2 :: kvs2) ≤ f' + 1 := by
        have := le_max_right (jfuel v1) (mfuel (kv2 :: kvs2))
        omega
      have hns : numSafe (serObjRest d (kv2 :: kvs2) ++ (nlc e ++ (rbrace :: suf))) :=
        numSafe_serObjRest d e (kv2 :: kvs2) _
      have hpv := parseVal_serVal v1 (f' + 1) d _ hfv hns
      have hpv' : parseVal (f' + 1)
          (' ' :: (serVal d v1 ++ (serObjRest d (kv2 :: kvs2) ++ (nlc e ++ (rbrace :: suf))))) =
          some (v1, serObjRest d (kv2 :: kvs2) ++ (nlc e ++ (rbrace :: suf))) := by
        have hws : ∀ c ∈ [' '], isWsCh c = true := by simp [isWsCh]
        have habs := parseVal_ws f' [' ']
          (serVal d v1 ++ (serObjRest d (kv2 :: kvs2) ++ (nlc e ++ (rbrace :: suf)))) hws
        simp only [List.cons_append, List.nil_append] at habs
        rw [habs, hpv]
      have hps := parseStrBody_escList k1.data
        (':' :: ' ' :: (serVal d v1 ++ (serObjRest d (kv2 :: kvs2) ++ (nlc e ++ (rbrace :: suf)))))
      rw [parseMembers.eq_2]
      rw [skipWs_append_ws _ _ hw]
      simp only [serMember_eq, List.cons_append, List.append_assoc]
      rw [skipWs_not_ws _ (by decide)]
      have T := parseMembers_serObj kv2 kvs2 (f' + 1) d e (nlc d) suf (nlc_ws d) hfy
      simp only [nlc, rbrace, List.cons_append, List.append_assoc] at T
      simp only [serObjRest, nlc, rbrace, List.cons_append, List.append_assoc] at hps hpv' ⊢
      simp [hps, skipWs, isWsCh, skipWs_replicate, hpv', string_mk_data, rbrace, T]
termination_by kv kvs _ _ _ _ _ _ _ => 1 + sizeOf kv + sizeOf kvs
decreasing_by
  all_goals simp_wf
  all_goals omega

end

mutual

lemma jfuel_le_len : ∀ (j : Json) (d : Nat), jfuel j ≤ (serVal d j).length
  | Json.null, d => by simp [serVal, jfuel]
  | Json.bool true, d => by simp [serVal, jfuel]
  | Json.bool false, d => by simp [serVal, jfuel]
  | Json.num (Int.ofNat m), d => by
      obtain ⟨c, cs, hrep, _, _⟩ := natChars_head m
      simp [serVal, intChars, jfuel, hrep]
  | Json.num (Int.negSucc m), d => by simp [serVal, intChars, jfuel]
  | Json.str s, d => by simp [serVal, serStr, jfuel]
  | Json.arr [], d => by simp [serVal, serArr, jfuel, lfuel]
  | Json.arr (x :: xs), d => by
      have h1 := jfuel_le_len x (d + 1)
      have h2 := lfuel_le_len xs (d + 1)
      have h3 : lfuel (x :: xs) = 1 + max (jfuel x) (lfuel xs) := by rw [lfuel]
      have h4 : jfuel (Json.arr (x :: xs)) = 1 + lfuel (x :: xs) := by rw [jfuel]
      simp [serVal, serArr, nlc, List.length_append, h3, h4]
      omega
  | Json.obj [], d => by simp [serVal, serObj, jfuel, mfuel]
  | Json.obj ((k1, v1) :: kvs), d => by
      have h1 := jfuel_le_len v1 (d + 1)
      have h2 := mfuel_le_len kvs (d + 1)
      have h3 : mfuel ((k1, v1) :: kvs) = 1 + max (jfuel v1) (mfuel kvs) := by rw [mfuel]
      have h4 : jfuel (Json.obj ((k1, v1) :: kvs)) = 1 + mfuel ((k1, v1) :: kvs) := by
        rw [jfuel]
      simp [serVal, serObj, serMember, serStr, nlc, List.length_append, h3, h4]
      omega

termination_by j _ => sizeOf j
decreasing_by
  all_goals simp_wf
  all_goals omega

lemma lfuel_le_len : ∀ (xs : List Json) (d : Nat), lfuel xs ≤ (serArrRest d xs).length
  | [], d => by simp [serArrRest, lfuel]
  | x :: xs, d => by
      have h1 := jfuel_le_len x d
      have h2 := lfuel_le_len xs d
      have h3 : lfuel (x :: xs) = 1 + max (jfuel x) (lfuel xs) := by rw [lfuel]
      simp [serArrRest, nlc, List.length_append, h3]
      omega

termination_by xs _ => sizeOf xs
decreasing_by
  all_goals simp_wf
  all_goals omega

lemma mfuel_le_len : ∀ (kvs : List (String × Json)) (d : Nat),
    mfuel kvs ≤ (serObjRest d kvs).length
  | [], d => by simp [serObjRest, mfuel]
  | (k1, v1) :: kvs, d => by
      have h1 := jfuel_le_len v1 d
      have h2 := mfuel_le_len kvs d
      have h3 : mfuel ((k1, v1) :: kvs) = 1 + max (jfuel v1) (mfuel kvs) := by rw [mfuel]
      simp [serObjRest, serMember, serStr, nlc, List.length_append, h3]
      omega
termination_by kvs _ => sizeOf kvs
decreasing_by
  all_goals simp_wf
  all_goals omega

end

/-- The serialize-then-parse identity, for every JSON value: `json.loads`
recovers exactly the document `json.dumps(..., indent=2)` wrote. -/
lemma loads_dumps (j : Json) : loads (dumps j) = some j := by
  have hb := jfuel_le_len j 0
  have h := parseVal_serVal j ((serVal 0 j).length + 1) 0 [] (by omega) trivial
  rw [List.append_nil] at h
  simp [loads, dumps, h, skipWs]

/-- C8: every inventory document the builder produces survives a
serialize/parse round trip structurally unchanged (proved via the general
round-trip identity for the serializer and parser). -/
theorem C8_serialize_parse_roundtrip (tfj doc : Json) (ds : List Diag)
    (_h : build tfj = Except.ok (doc, ds)) :
    loads (dumps doc) = some doc :=
  loads_dumps doc

/-- C8 witness: the round trip on the document built from the spec's
scenario input. -/
theorem C8_witness :
    loads (dumps (fullInventory (Json.str "203.0.113.10") (Json.str "vault.test"))) =
      some (fullInventory (Json.str "203.0.113.10") (Json.str "vault.test")) :=
  C8_serialize_parse_roundtrip
    (Json.obj [("ec2_public_ip", Json.obj [("value", Json.str "203.0.113.10")]),
               ("vault_domain", Json.obj [("value", Json.str "vault.test")])])
    _ _ rfl

end DynamicInventory
